import Mathlib

/-!
# Verification of `pagmo::fork_island` (src/include/pagmo/islands/fork_island.hpp)

Shallow embedding of the fork-island isolation-and-relay engine:

* the wire message `message_t = (status, error text, algorithm, population)`;
* the RAII pipe wrapper `pipe_t` with its per-end open/closed flags;
* the child-side chunked sender `send_message` (1024-byte chunks over a
  `stringstream`) and the parent-side read-until-EOF accumulation loop;
* the child-side runner (success path and the two failure-reporting paths);
* the parent-side coordinator (read/decode, kill-the-child-and-reraise,
  `ChildTaskFailed` raising, state installation).

Algorithm and population values are opaque to the engine, so they are type
parameters `A` and `P`.  Serialization (cereal) is external to the repository:
it is modelled as a parameter pair `enc`/`dec`; theorems that need it assume
cereal's round-trip contract `dec (enc m) = some m`.  Byte sequences are
`List β` for an arbitrary element type `β`.  OS calls (`close`, `read`,
`write`, `kill`) are modelled by explicit result oracles: `none` means the
call succeeded, `some e` means it failed with error code `e`.
-/

namespace ForkIsland

/-- Error taxonomy of the engine, structured as in the spec.  In the C++
source every error is a `std::runtime_error` with a formatted text;
`syscallFailure` keeps the failing call name and the `errno` that
`raise_errno` embeds in the text, `childTaskFailed` keeps the child-reported
error message that `run_evolve` embeds in the text it throws at the caller,
and `decodeFailure` is the cereal exception raised by `iarchive(m)`. -/
inductive EngineError where
  | syscallFailure (call : String) (errno : Int)
  | childTaskFailed (message : String)
  | decodeFailure
deriving DecidableEq, Repr

/-- `message_t = std::tuple<int, std::string, algorithm, population>`:
status flag, error message, the algorithm used for evolution, the evolved
population. -/
structure Message (A P : Type) where
  status : Int
  errText : String
  algo : A
  pop : P
deriving DecidableEq, Repr

/-- The caller-visible mutable state borrowed by `run_evolve`: the island
holds an algorithm and a population (`isl.set_algorithm` / `isl.set_population`
overwrite them). -/
structure Island (A P : Type) where
  algo : A
  pop : P
deriving DecidableEq, Repr

/-- `pipe_t`: the two file descriptors plus the open/closed flag of each end
(`true` = open). -/
structure pipe_t where
  read : Int
  write : Int
  r_status : Bool
  w_status : Bool
deriving DecidableEq, Repr

/-- `pipe_t::close_r()`: if the reading end is flagged open, invoke the
`close` syscall (result oracle `res`); on syscall failure `raise_errno`
throws before the flag is updated, so the returned state is unchanged.
The first component is the raised error (if any), the second the pipe state
after the call. -/
def close_r (p : pipe_t) (res : Option Int) : Option EngineError × pipe_t :=
  if p.r_status then
    match res with
    | some e => (some (.syscallFailure "close" e), p)
    | none => (none, { p with r_status := false })
  else (none, p)

/-- `pipe_t::close_w()`: same as `close_r` for the writing end. -/
def close_w (p : pipe_t) (res : Option Int) : Option EngineError × pipe_t :=
  if p.w_status then
    match res with
    | some e => (some (.syscallFailure "close" e), p)
    | none => (none, { p with w_status := false })
  else (none, p)

/-- The diagnostic printed by `pipe_t::~pipe_t` before `std::exit(1)`. -/
def pipeDtorMsg : String :=
  "An unrecoverable error was raised in the destructor of a pipe in fork_island(). Exiting now."

/-- The fatal diagnostic of the parent-side catch handler. -/
def parentFatalMsg : String :=
  "An unrecoverable error was raised while handling another error in the parent process of fork_island(). Giving up now."

/-- The fatal diagnostic `fatal_msg` of the child process. -/
def childFatalMsg : String :=
  "An unrecoverable error was raised while handling another error in the child process of fork_island(). Giving up now."

/-- Result of `pipe_t::~pipe_t`: either both ends are closed and the final
pipe state is returned, or a close failed and the process exits with the
given nonzero code after printing the diagnostic. -/
inductive DtorResult where
  | done (p : pipe_t)
  | fatal (exitCode : Nat) (diag : String)
deriving DecidableEq, Repr

/-- `pipe_t::~pipe_t()`: attempt `close_r()` then `close_w()`; any exception
is swallowed into a diagnostic on `std::cerr` followed by `std::exit(1)`. -/
def pipeDtor (p : pipe_t) (resR resW : Option Int) : DtorResult :=
  match close_r p resR with
  | (some _, _) => .fatal 1 pipeDtorMsg
  | (none, p1) =>
    match close_w p1 resW with
    | (some _, _) => .fatal 1 pipeDtorMsg
    | (none, p2) => .done p2

/-- `sizeof(buffer)` in both the child sender and the parent reader. -/
def chunkSize : Nat := 1024

/-- The chunk sequence produced by the `while (!ss.eof())` loop of
`send_message`: each iteration `ss.read`s up to 1024 bytes into the local
buffer and writes the `gcount()` bytes actually extracted.  A read that
extracts fewer than 1024 bytes sets `eofbit`, ending the loop after that
write; a read at exactly the end of the stream extracts 0 bytes, so a
buffer whose length is a multiple of 1024 (including the empty buffer) ends
with one zero-length write. -/
def sendChunks (buf : List β) : List (List β) :=
  if _h : buf.length < chunkSize then [buf]
  else buf.take chunkSize :: sendChunks (buf.drop chunkSize)
termination_by buf.length
decreasing_by
  simp only [List.length_drop, chunkSize] at *
  omega

/-- The write loop of `send_message`, chunk by chunk: the `i`-th chunk write
invokes the `write` syscall with result `wr.headD none` after `i` oracle
entries have been consumed; `-1` makes `raise_errno("write")` throw, ending
the loop.  Returns the raised error (if any) together with the bytes handed
to the pipe before the failure. -/
def writeChunks (chunks : List (List β)) (wr : List (Option Int)) :
    Option EngineError × List β :=
  match chunks with
  | [] => (none, [])
  | c :: cs =>
    match wr.headD none with
    | some e => (some (.syscallFailure "write" e), [])
    | none =>
      let r := writeChunks cs wr.tail
      (r.1, c ++ r.2)

/-- `send_message(ms)`: serialize `ms` into a byte buffer with the binary
output archive (`enc`), then transfer the buffer over the pipe write end in
chunks of at most 1024 bytes. -/
def send_message (enc : Message A P → List β) (ms : Message A P)
    (wr : List (Option Int)) : Option EngineError × List β :=
  writeChunks (sendChunks (enc ms)) wr

/-- The parent read loop: each `read` either fails with an error code
(raising `SyscallFailure` for `read`), returns a nonempty chunk of bytes
(appended to the accumulating `stringstream`), or returns zero bytes
(end-of-channel, breaking the loop).  `reads` is the trace of `read`
results; an exhausted trace behaves as end-of-channel. -/
def readLoop (reads : List (Except Int (List β))) : Except EngineError (List β) :=
  match reads with
  | [] => .ok []
  | .error e :: _ => .error (.syscallFailure "read" e)
  | .ok [] :: _ => .ok []
  | .ok c :: rs =>
    match readLoop rs with
    | .error e => .error e
    | .ok acc => .ok (c ++ acc)

/-! ## Child-side runner -/

/-- Outcome of `algo.evolve(isl.get_population())` in the child: either the
new algorithm/population pair, a thrown `std::exception` whose `what()` is
`msg`, or a thrown non-`std::exception` (no extractable message). -/
inductive TaskResult (A P : Type) where
  | success (algo : A) (pop : P)
  | exnWithMsg (msg : String)
  | exnNoMsg
deriving DecidableEq, Repr

/-- Syscall-result oracles consumed by the child process: its `close_r`, the
`write`s of the first `send_message`, the `close_w` of the success path, the
`write`s of the failure-report `send_message`, and the `close_w` of the
failure-report path.  `captureOk` models whether the string assignment
`std::get<1>(m) = e.what()` succeeds. -/
structure ChildEnv where
  closeR : Option Int
  wr1 : List (Option Int)
  closeW1 : Option Int
  captureOk : Bool
  wr2 : List (Option Int)
  closeW2 : Option Int
deriving DecidableEq, Repr

/-- How the child process ends: an explicit `std::exit(code)` after having
written `stream` to the pipe, with `fatalDiag = true` when it first printed
`fatal_msg` on `std::cerr` (the double-fault paths). -/
structure ChildExit (β : Type) where
  exitCode : Nat
  stream : List β
  fatalDiag : Bool
deriving DecidableEq, Repr

/-- A `std::exception` escaping the child's first `try` block: either an
engine error raised by `close_r`/`send_message`/`close_w` (whose `what()` is
the formatted text of `raise_errno`, abstracted by the `what` parameter
below), a task exception carrying message `msg`, or a non-`std::exception`. -/
inductive ChildFault where
  | engine (e : EngineError)
  | taskMsg (msg : String)
  | taskNoMsg
deriving DecidableEq, Repr

/-- The child's first `try` block: close the read end, run the evolution,
pack the default-constructed message (status `0`, empty error text) with the
evolved algorithm and population, send it, close the write end.  Returns the
escaping fault (if any), the bytes written so far, and the list of messages
passed to `send_message`. -/
def childTry (enc : Message A P → List β) (task : TaskResult A P)
    (pr : Option Int) (wr1 : List (Option Int)) (pw : Option Int) :
    Option ChildFault × List β × List (Message A P) :=
  match pr with
  | some e => (some (.engine (.syscallFailure "close" e)), [], [])
  | none =>
    match task with
    | .exnWithMsg msg => (some (.taskMsg msg), [], [])
    | .exnNoMsg => (some .taskNoMsg, [], [])
    | .success a p =>
      let m : Message A P := ⟨0, "", a, p⟩
      match send_message enc m wr1 with
      | (some e, stream) => (some (.engine e), stream, [m])
      | (none, stream) =>
        match pw with
        | some e => (some (.engine (.syscallFailure "close" e)), stream, [m])
        | none => (none, stream, [m])

/-- The message captured into `std::get<1>(m)` by the catch handlers:
`e.what()` for a `std::exception` (`what` renders the formatted text of an
engine error), nothing for `catch (...)` (the error text stays at its
value-initialized empty string). -/
def capturedMsg (what : EngineError → String) : ChildFault → Option String
  | .engine e => some (what e)
  | .taskMsg msg => some msg
  | .taskNoMsg => none

/-- The child side of `run_evolve` (the `else` branch after `fork()`): run
`childTry`; on success exit with status 0.  On a `std::exception`, capture
its message (a failing capture prints `fatal_msg` and exits 1); on any
fault, set the status flag to 1, replace algorithm and population with
default-constructed instances, send the failure report, close the write
end, and exit 0; a failure in that reporting path prints `fatal_msg` and
exits 1.  Also returns the list of messages passed to `send_message`. -/
def childRun (enc : Message A P → List β) (what : EngineError → String)
    (defA : A) (defP : P) (task : TaskResult A P) (env : ChildEnv) :
    ChildExit β × List (Message A P) :=
  match childTry enc task env.closeR env.wr1 env.closeW1 with
  | (none, stream, sent) => (⟨0, stream, false⟩, sent)
  | (some fault, stream, sent) =>
    let msg? := capturedMsg what fault
    if msg?.isSome && !env.captureOk then
      (⟨1, stream, true⟩, sent)
    else
      let m2 : Message A P := ⟨1, msg?.getD "", defA, defP⟩
      match send_message enc m2 env.wr2 with
      | (some _, stream2) => (⟨1, stream ++ stream2, true⟩, sent ++ [m2])
      | (none, stream2) =>
        match env.closeW2 with
        | some _ => (⟨1, stream ++ stream2, true⟩, sent ++ [m2])
        | none => (⟨0, stream ++ stream2, false⟩, sent ++ [m2])

/-! ## Parent-side coordinator -/

/-- Syscall-result oracles consumed by the parent: its `close_w`, the trace
of `read` results, its `close_r`, and the result of `kill(child_pid,
SIGTERM)` in the catch handler. -/
structure ParentEnv (β : Type) where
  closeW : Option Int
  reads : List (Except Int (List β))
  closeR : Option Int
  kill : Option Int
deriving Repr

/-- `ESRCH`: the error that means "no such process". -/
def ESRCH : Int := 3

/-- How the parent half of `run_evolve` ends: it returns normally with the
(possibly updated) island, throws an engine error leaving the island as it
was, or exits the whole parent process from the catch handler after
printing the fatal diagnostic. -/
inductive Outcome (A P : Type) where
  | ok (isl : Island A P)
  | err (e : EngineError) (isl : Island A P)
  | fatal (exitCode : Nat) (diag : String)
deriving DecidableEq, Repr

/-- The parent's `try` block: close the write end, read chunks into the
accumulating `stringstream` until end-of-channel, decode the message with
the binary input archive (`dec`; `none` models a cereal exception), close
the read end. -/
def parentTry (dec : List β → Option (Message A P)) (env : ParentEnv β) :
    Except EngineError (Message A P) :=
  match env.closeW with
  | some e => .error (.syscallFailure "close" e)
  | none =>
    match readLoop env.reads with
    | .error e => .error e
    | .ok buf =>
      match dec buf with
      | none => .error .decodeFailure
      | some m =>
        match env.closeR with
        | some e => .error (.syscallFailure "close" e)
        | none => .ok m

/-- The parent side of `run_evolve` after a successful `fork()`: run the
`try` block; on an exception, `kill` the child with `SIGTERM` — a kill
failure with an error other than `ESRCH` prints the fatal diagnostic and
exits 1, otherwise the original exception is re-raised.  Then, on a decoded
message, a nonzero status flag raises `ChildTaskFailed` with the
child-reported error text, and a zero status installs the decoded algorithm
and population into the island. -/
def parentRun (dec : List β → Option (Message A P)) (env : ParentEnv β)
    (isl : Island A P) : Outcome A P :=
  match parentTry dec env with
  | .error e =>
    match env.kill with
    | some ke => if ke = ESRCH then .err e isl else .fatal 1 parentFatalMsg
    | none => .err e isl
  | .ok m =>
    if m.status ≠ 0 then .err (.childTaskFailed m.errText) isl
    else .ok ⟨m.algo, m.pop⟩

/-! ## Lemmas about the chunked transfer -/

/-- The chunks of the sender concatenate back to the whole encoded buffer. -/
theorem sendChunks_join (buf : List β) : (sendChunks buf).flatten = buf := by
  induction buf using sendChunks.induct with
  | case1 buf h => rw [sendChunks]; simp [h]
  | case2 buf h ih =>
    rw [sendChunks]
    simp only [h, dite_false, List.flatten_cons, ih, List.take_append_drop]

/-- Every chunk the sender hands to `write` has at most `chunkSize` bytes. -/
theorem sendChunks_le (buf : List β) :
    ∀ c ∈ sendChunks buf, c.length ≤ chunkSize := by
  induction buf using sendChunks.induct with
  | case1 buf h =>
    rw [sendChunks]
    simp only [h, dite_true, List.mem_singleton]
    intro c hc
    subst hc
    omega
  | case2 buf h ih =>
    rw [sendChunks]
    simp only [h, dite_false, List.mem_cons]
    intro c hc
    rcases hc with hc | hc
    · subst hc
      simp [List.length_take]
    · exact ih c hc

/-- `sendChunks` always produces at least one chunk (even an empty buffer is
sent as one zero-length write). -/
theorem sendChunks_ne_nil (buf : List β) : sendChunks buf ≠ [] := by
  rw [sendChunks]
  split <;> simp

/-- If every `write` succeeds, the write loop raises nothing and the bytes
handed to the pipe are exactly the concatenation of the chunks. -/
theorem writeChunks_ok (chunks : List (List β)) (wr : List (Option Int))
    (hwr : ∀ r ∈ wr, r = none) :
    writeChunks chunks wr = (none, chunks.flatten) := by
  induction chunks generalizing wr with
  | nil => rfl
  | cons c cs ih =>
    have hhead : wr.headD none = none := by
      cases wr with
      | nil => rfl
      | cons r rs => exact hwr r (List.mem_cons_self r rs)
    have htail : ∀ r ∈ wr.tail, r = none := by
      intro r hr
      exact hwr r (List.mem_of_mem_tail hr)
    simp only [writeChunks, hhead, ih wr.tail htail, List.flatten_cons]

/-- If the first `k` writes succeed and the `(k+1)`-st fails with error code
`e` while chunks remain, the loop raises `SyscallFailure` for `write` with
that code. -/
theorem writeChunks_fail (chunks : List (List β)) (k : Nat) (e : Int)
    (rest : List (Option Int)) (hk : k < chunks.length) :
    (writeChunks chunks (List.replicate k none ++ some e :: rest)).1
      = some (.syscallFailure "write" e) := by
  induction k generalizing chunks with
  | zero =>
    cases chunks with
    | nil => simp at hk
    | cons c cs => simp [writeChunks]
  | succ k ih =>
    cases chunks with
    | nil => simp at hk
    | cons c cs =>
      simp only [List.length_cons, Nat.succ_lt_succ_iff] at hk
      simp only [writeChunks, List.replicate_succ, List.cons_append,
        List.headD_cons, List.tail_cons]
      exact ih cs hk

/-- Honest in-order delivery: if the kernel partitions the child's byte
stream into any sequence of nonempty read results followed by the
end-of-channel zero read, the parent's accumulation loop reconstructs the
stream exactly. -/
theorem readLoop_delivery (cs : List (List β)) (hne : ∀ c ∈ cs, c ≠ []) :
    readLoop (cs.map Except.ok ++ [Except.ok []]) = .ok cs.flatten := by
  induction cs with
  | nil => rfl
  | cons c cs ih =>
    have hc : c ≠ [] := hne c (List.mem_cons_self c cs)
    have hrest : ∀ x ∈ cs, x ≠ [] := fun x hx => hne x (List.mem_cons_of_mem c hx)
    cases c with
    | nil => exact absurd rfl hc
    | cons b bs =>
      simp only [List.map_cons, List.cons_append, readLoop, List.append_eq,
        ih hrest, List.flatten_cons]

/-! ## Path-evaluation lemmas for the child and the parent -/

/-- Child success path: with a successful `close_r`, all `write`s succeeding
and a successful `close_w`, the first `try` block completes, having sent
exactly one message — status `0`, empty error text, the evolved algorithm
and population — whose encoding is the byte stream on the pipe. -/
theorem childTry_success_eq (enc : Message A P → List β) (a : A) (p : P)
    (wr1 : List (Option Int)) (hw1 : ∀ r ∈ wr1, r = none) :
    childTry enc (.success a p) none wr1 none
      = (none, enc ⟨0, "", a, p⟩, [⟨0, "", a, p⟩]) := by
  have h1 := writeChunks_ok (sendChunks (enc ⟨0, "", a, p⟩)) wr1 hw1
  simp only [childTry, send_message, h1, sendChunks_join]

/-- Child success path, whole runner: exit code 0, no fatal diagnostic, the
stream is the encoding of the success message. -/
theorem childRun_success_eq (enc : Message A P → List β)
    (what : EngineError → String) (defA : A) (defP : P) (a : A) (p : P)
    (env : ChildEnv) (hcR : env.closeR = none)
    (hw1 : ∀ r ∈ env.wr1, r = none) (hcW : env.closeW1 = none) :
    childRun enc what defA defP (.success a p) env
      = (⟨0, enc ⟨0, "", a, p⟩, false⟩, [⟨0, "", a, p⟩]) := by
  unfold childRun
  rw [hcR, hcW, childTry_success_eq enc a p env.wr1 hw1]

/-- Child failure-report path for a `std::exception` carrying message `msg`:
with a successful capture and successful report syscalls, the child sends
exactly one message — status `1`, error text `msg`, default-constructed
algorithm and population — and exits 0 without a fatal diagnostic. -/
theorem childRun_exnWithMsg_eq (enc : Message A P → List β)
    (what : EngineError → String) (defA : A) (defP : P) (msg : String)
    (env : ChildEnv) (hcR : env.closeR = none) (hcap : env.captureOk = true)
    (hw2 : ∀ r ∈ env.wr2, r = none) (hcW2 : env.closeW2 = none) :
    childRun enc what defA defP (.exnWithMsg msg) env
      = (⟨0, enc ⟨1, msg, defA, defP⟩, false⟩, [⟨1, msg, defA, defP⟩]) := by
  have h2 := writeChunks_ok (sendChunks (enc ⟨1, msg, defA, defP⟩)) env.wr2 hw2
  unfold childRun childTry
  rw [hcR]
  simp only [capturedMsg, hcap, Option.isSome_some, Bool.not_true,
    Bool.and_false, Bool.false_eq_true, if_false, Option.getD_some,
    send_message, h2, sendChunks_join, hcW2, List.nil_append]

/-- Child failure-report path for a non-`std::exception`: no message is
extractable, so the report carries an empty error text. -/
theorem childRun_exnNoMsg_eq (enc : Message A P → List β)
    (what : EngineError → String) (defA : A) (defP : P)
    (env : ChildEnv) (hcR : env.closeR = none)
    (hw2 : ∀ r ∈ env.wr2, r = none) (hcW2 : env.closeW2 = none) :
    childRun enc what defA defP .exnNoMsg env
      = (⟨0, enc ⟨1, "", defA, defP⟩, false⟩, [⟨1, "", defA, defP⟩]) := by
  have h2 := writeChunks_ok (sendChunks (enc ⟨1, "", defA, defP⟩)) env.wr2 hw2
  unfold childRun childTry
  rw [hcR]
  simp only [capturedMsg, Option.isSome_none, Bool.false_and,
    Bool.false_eq_true, if_false, Option.getD_none,
    send_message, h2, sendChunks_join, hcW2, List.nil_append]

/-- Parent `try` block under honest delivery: with successful closes, a
kernel partition of the stream into nonempty reads followed by
end-of-channel, and a decodable accumulated buffer, the decoded message is
returned. -/
theorem parentTry_delivery_eq (dec : List β → Option (Message A P))
    (env : ParentEnv β) (delivery : List (List β)) (m : Message A P)
    (hW : env.closeW = none) (hR : env.closeR = none)
    (hne : ∀ c ∈ delivery, c ≠ [])
    (hreads : env.reads = delivery.map Except.ok ++ [Except.ok []])
    (hdec : dec delivery.flatten = some m) :
    parentTry dec env = .ok m := by
  simp only [parentTry, hW, hreads, readLoop_delivery delivery hne, hdec, hR]

/-- Every message the first `try` block passes to `send_message` is the
success message built from the evolved algorithm and population. -/
theorem childTry_sent_mem (enc : Message A P → List β) (task : TaskResult A P)
    (pr : Option Int) (wr1 : List (Option Int)) (pw : Option Int) :
    ∀ m ∈ (childTry enc task pr wr1 pw).2.2,
      ∃ a p, task = .success a p ∧ m = ⟨0, "", a, p⟩ := by
  intro m hm
  cases pr with
  | some e => simp [childTry] at hm
  | none =>
    cases task with
    | exnWithMsg msg => simp [childTry] at hm
    | exnNoMsg => simp [childTry] at hm
    | success a p =>
      rcases hsm : send_message enc ⟨0, "", a, p⟩ wr1 with ⟨w, stream⟩
      cases w with
      | some e =>
        simp [childTry, hsm] at hm
        exact ⟨a, p, rfl, hm⟩
      | none =>
        cases pw with
        | some e =>
          simp [childTry, hsm] at hm
          exact ⟨a, p, rfl, hm⟩
        | none =>
          simp [childTry, hsm] at hm
          exact ⟨a, p, rfl, hm⟩

/-- Every message the child passes to `send_message` is either the success
message built from the evolved state, or a failure report with status `1`
and default-constructed algorithm and population. -/
theorem childRun_sent_mem (enc : Message A P → List β)
    (what : EngineError → String) (defA : A) (defP : P)
    (task : TaskResult A P) (env : ChildEnv) :
    ∀ m ∈ (childRun enc what defA defP task env).2,
      (∃ a p, task = .success a p ∧ m = ⟨0, "", a, p⟩) ∨
      (m.status = 1 ∧ m.algo = defA ∧ m.pop = defP) := by
  intro m hm
  unfold childRun at hm
  rcases hct : childTry enc task env.closeR env.wr1 env.closeW1 with ⟨fault, stream, sent⟩
  rw [hct] at hm
  have hsent : ∀ x ∈ sent, ∃ a p, task = .success a p ∧ x = ⟨0, "", a, p⟩ := by
    intro x hx
    exact childTry_sent_mem enc task env.closeR env.wr1 env.closeW1 x
      (by rw [hct]; exact hx)
  cases fault with
  | none =>
    simp only at hm
    exact .inl (hsent m hm)
  | some f =>
    simp only at hm
    split at hm
    · exact .inl (hsent m hm)
    · rcases hsm : send_message enc
        ⟨1, (capturedMsg what f).getD "", defA, defP⟩ env.wr2 with ⟨w, s2⟩
      rw [hsm] at hm
      cases w with
      | some e =>
        simp only [List.mem_append, List.mem_singleton] at hm
        rcases hm with hm | hm
        · exact .inl (hsent m hm)
        · subst hm
          exact .inr ⟨rfl, rfl, rfl⟩
      | none =>
        rcases hw2 : env.closeW2 with _ | e2 <;> rw [hw2] at hm <;>
          simp only [List.mem_append, List.mem_singleton] at hm <;>
          rcases hm with hm | hm
        · exact .inl (hsent m hm)
        · subst hm
          exact .inr ⟨rfl, rfl, rfl⟩
        · exact .inl (hsent m hm)
        · subst hm
          exact .inr ⟨rfl, rfl, rfl⟩

/-! ## Claim theorems -/

/-- C6: the child-side sender transfers the encoded byte buffer in chunks of
at most 1024 bytes and loops until every byte of the encoded buffer has been
handed to the pipe's write end (so the concatenation of all chunks written
equals the full encoded buffer); a failing chunk write raises
`SyscallFailure` naming the `write` call and the OS error code. -/
theorem send_message_chunked_transfer (enc : Message A P → List β)
    (m : Message A P) :
    (∀ c ∈ sendChunks (enc m), c.length ≤ 1024) ∧
    (∀ wr : List (Option Int), (∀ r ∈ wr, r = none) →
      send_message enc m wr = (none, enc m)) ∧
    (∀ k e rest, k < (sendChunks (enc m)).length →
      (send_message enc m (List.replicate k none ++ some e :: rest)).1
        = some (.syscallFailure "write" e)) := by
  refine ⟨sendChunks_le (enc m), fun wr hwr => ?_, fun k e rest hk => ?_⟩
  · simp only [send_message, writeChunks_ok _ wr hwr, sendChunks_join]
  · exact writeChunks_fail _ k e rest hk

/-- Witness for C6 at a 2500-element payload (spanning three chunks) with
all writes succeeding. -/
theorem send_message_chunked_transfer_witness :
    send_message (fun ms : Message Nat Nat => List.replicate 2500 ms.algo)
        ⟨0, "", 7, 8⟩ [] = (none, List.replicate 2500 7) :=
  (send_message_chunked_transfer
    (fun ms : Message Nat Nat => List.replicate 2500 ms.algo) ⟨0, "", 7, 8⟩).2.1
    [] (by intro r hr; simp at hr)

/-- C7: when the parent's read/decode sub-sequence fails, the parent invokes
`kill(child_pid, SIGTERM)`; a successful kill or a kill failing with `ESRCH`
(no such process) re-raises the original error unchanged, while a kill
failing with any other code prints the fixed diagnostic and terminates the
parent process immediately. -/
theorem parent_kill_and_reraise (dec : List β → Option (Message A P))
    (env : ParentEnv β) (isl : Island A P) (e : EngineError)
    (herr : parentTry dec env = .error e) :
    (env.kill = none → parentRun dec env isl = .err e isl) ∧
    (env.kill = some ESRCH → parentRun dec env isl = .err e isl) ∧
    (∀ ke, env.kill = some ke → ke ≠ ESRCH →
      parentRun dec env isl = .fatal 1 parentFatalMsg) := by
  unfold parentRun
  rw [herr]
  exact ⟨fun hk => by rw [hk], fun hk => by rw [hk]; simp,
    fun ke hk hne => by rw [hk]; simp [hne]⟩

/-- Witness for C7: the parent `close_w` fails with code 5, the kill
succeeds, and the close error is re-raised unchanged. -/
theorem parent_kill_and_reraise_witness :
    parentRun (fun l : List Nat => some (⟨0, "", l.length, 0⟩ : Message Nat Nat))
        ⟨some 5, [], none, none⟩ ⟨1, 2⟩
      = .err (.syscallFailure "close" 5) ⟨1, 2⟩ :=
  (parent_kill_and_reraise (fun l : List Nat => some ⟨0, "", l.length, 0⟩)
    ⟨some 5, [], none, none⟩ ⟨1, 2⟩ (.syscallFailure "close" 5) rfl).1 rfl

/-- C3: `run_evolve` mutates the caller-visible island only on success: on
every invocation that raises an error — `ChildTaskFailed` included — the
caller-visible state it leaves behind is exactly the state it started
with. -/
theorem run_evolve_frame_on_failure (dec : List β → Option (Message A P))
    (env : ParentEnv β) (isl s : Island A P) (e : EngineError)
    (h : parentRun dec env isl = .err e s) : s = isl := by
  unfold parentRun at h
  split at h
  · split at h
    · split at h
      · injection h with h1 h2
        exact h2.symm
      · simp at h
    · injection h with h1 h2
      exact h2.symm
  · split at h
    · injection h with h1 h2
      exact h2.symm
    · simp at h

/-- Witness for C3: a read failure with code 11 leaves the island `⟨1, 2⟩`
untouched. -/
theorem run_evolve_frame_on_failure_witness :
    (⟨1, 2⟩ : Island Nat Nat) = ⟨1, 2⟩ :=
  run_evolve_frame_on_failure
    (fun l : List Nat => some ⟨0, "", l.length, 0⟩)
    ⟨none, [Except.error 11], none, none⟩ ⟨1, 2⟩ ⟨1, 2⟩
    (.syscallFailure "read" 11) (by decide)

/-- C1: for every task that completes without failure, `run_evolve` returns
success and the installed algorithm and population equal exactly the values
the task computed in the child.  Under cereal's round-trip contract `hrt`,
for any encoding `enc` (hence any payload size relative to the 1024-byte
chunk size) and any honest kernel partition of the pipe's byte stream into
reads, the child exits 0 having written exactly the encoding of the success
message, and the parent decodes it and installs `⟨a, p⟩`. -/
theorem run_evolve_success_roundtrip
    (enc : Message A P → List β) (dec : List β → Option (Message A P))
    (hrt : ∀ ms, dec (enc ms) = some ms)
    (what : EngineError → String) (defA : A) (defP : P) (a : A) (p : P)
    (cenv : ChildEnv) (penv : ParentEnv β) (isl : Island A P)
    (delivery : List (List β))
    (hcR : cenv.closeR = none) (hw1 : ∀ r ∈ cenv.wr1, r = none)
    (hcW : cenv.closeW1 = none)
    (hpW : penv.closeW = none) (hpR : penv.closeR = none)
    (hne : ∀ c ∈ delivery, c ≠ [])
    (hjoin : delivery.flatten = enc ⟨0, "", a, p⟩)
    (hreads : penv.reads = delivery.map Except.ok ++ [Except.ok []]) :
    (childRun enc what defA defP (.success a p) cenv).1
        = ⟨0, enc ⟨0, "", a, p⟩, false⟩ ∧
    parentRun dec penv isl = .ok ⟨a, p⟩ := by
  refine ⟨by rw [childRun_success_eq enc what defA defP a p cenv hcR hw1 hcW], ?_⟩
  have htry := parentTry_delivery_eq dec penv delivery ⟨0, "", a, p⟩ hpW hpR hne
    hreads (by rw [hjoin]; exact hrt _)
  unfold parentRun
  rw [htry]
  simp

/-- Witness for C1: one-element payloads, a task computing `⟨7, 8⟩` from the
island `⟨1, 2⟩`, a single-read delivery. -/
theorem run_evolve_success_roundtrip_witness :
    (childRun (fun ms : Message Nat Nat => [ms]) (fun _ => "") 0 0
        (.success 7 8) ⟨none, [], none, true, [], none⟩).1
      = ⟨0, [⟨0, "", 7, 8⟩], false⟩ ∧
    parentRun (fun l : List (Message Nat Nat) => l.head?)
        ⟨none, [Except.ok [⟨0, "", 7, 8⟩], Except.ok []], none, none⟩ ⟨1, 2⟩
      = .ok ⟨7, 8⟩ :=
  run_evolve_success_roundtrip (fun ms => [ms]) (fun l => l.head?)
    (fun ms => rfl) (fun _ => "") 0 0 7 8
    ⟨none, [], none, true, [], none⟩
    ⟨none, [Except.ok [⟨0, "", 7, 8⟩], Except.ok []], none, none⟩ ⟨1, 2⟩
    [[⟨0, "", 7, 8⟩]] rfl (by intro r hr; simp at hr) rfl rfl rfl
    (by intro c hc; simp at hc; subst hc; simp) rfl rfl

/-- C2: for every task failure carrying a human-readable message `M`,
`run_evolve` raises `ChildTaskFailed` whose message is exactly `M` — the
child captures `e.what()` into the wire message unaltered, sends it once,
and the parent re-raises it verbatim, leaving the island untouched. -/
theorem run_evolve_child_error_message
    (enc : Message A P → List β) (dec : List β → Option (Message A P))
    (hrt : ∀ ms, dec (enc ms) = some ms)
    (what : EngineError → String) (defA : A) (defP : P) (M : String)
    (cenv : ChildEnv) (penv : ParentEnv β) (isl : Island A P)
    (delivery : List (List β))
    (hcR : cenv.closeR = none) (hcap : cenv.captureOk = true)
    (hw2 : ∀ r ∈ cenv.wr2, r = none) (hcW2 : cenv.closeW2 = none)
    (hpW : penv.closeW = none) (hpR : penv.closeR = none)
    (hne : ∀ c ∈ delivery, c ≠ [])
    (hjoin : delivery.flatten = enc ⟨1, M, defA, defP⟩)
    (hreads : penv.reads = delivery.map Except.ok ++ [Except.ok []]) :
    (childRun enc what defA defP (.exnWithMsg M) cenv).2 = [⟨1, M, defA, defP⟩] ∧
    parentRun dec penv isl = .err (.childTaskFailed M) isl := by
  refine ⟨by rw [childRun_exnWithMsg_eq enc what defA defP M cenv hcR hcap hw2 hcW2], ?_⟩
  have htry := parentTry_delivery_eq dec penv delivery ⟨1, M, defA, defP⟩ hpW hpR hne
    hreads (by rw [hjoin]; exact hrt _)
  unfold parentRun
  rw [htry]
  simp

/-- Witness for C2 with the message of Scenario B. -/
theorem run_evolve_child_error_message_witness :
    (childRun (fun ms : Message Nat Nat => [ms]) (fun _ => "") 0 0
        (.exnWithMsg "bounds violated") ⟨none, [], none, true, [], none⟩).2
      = [⟨1, "bounds violated", 0, 0⟩] ∧
    parentRun (fun l : List (Message Nat Nat) => l.head?)
        ⟨none, [Except.ok [⟨1, "bounds violated", 0, 0⟩], Except.ok []], none, none⟩
        ⟨1, 2⟩
      = .err (.childTaskFailed "bounds violated") ⟨1, 2⟩ :=
  run_evolve_child_error_message (fun ms => [ms]) (fun l => l.head?)
    (fun ms => rfl) (fun _ => "") 0 0 "bounds violated"
    ⟨none, [], none, true, [], none⟩
    ⟨none, [Except.ok [⟨1, "bounds violated", 0, 0⟩], Except.ok []], none, none⟩
    ⟨1, 2⟩ [[⟨1, "bounds violated", 0, 0⟩]] rfl rfl
    (by intro r hr; simp at hr) rfl rfl rfl
    (by intro c hc; simp at hc; subst hc; simp) rfl rfl

/-- C5: for every task failure from which no message can be extracted (a
non-`std::exception`), `run_evolve` raises `ChildTaskFailed` with an empty
message text — the child's `catch (...)` leaves the value-initialized empty
error text in place — and not a `SyscallFailure` or any other error kind. -/
theorem run_evolve_unknown_failure_empty_message
    (enc : Message A P → List β) (dec : List β → Option (Message A P))
    (hrt : ∀ ms, dec (enc ms) = some ms)
    (what : EngineError → String) (defA : A) (defP : P)
    (cenv : ChildEnv) (penv : ParentEnv β) (isl : Island A P)
    (delivery : List (List β))
    (hcR : cenv.closeR = none)
    (hw2 : ∀ r ∈ cenv.wr2, r = none) (hcW2 : cenv.closeW2 = none)
    (hpW : penv.closeW = none) (hpR : penv.closeR = none)
    (hne : ∀ c ∈ delivery, c ≠ [])
    (hjoin : delivery.flatten = enc ⟨1, "", defA, defP⟩)
    (hreads : penv.reads = delivery.map Except.ok ++ [Except.ok []]) :
    (childRun enc what defA defP .exnNoMsg cenv).2 = [⟨1, "", defA, defP⟩] ∧
    parentRun dec penv isl = .err (.childTaskFailed "") isl ∧
    ∀ call errno, parentRun dec penv isl ≠ .err (.syscallFailure call errno) isl := by
  have htry := parentTry_delivery_eq dec penv delivery ⟨1, "", defA, defP⟩ hpW hpR hne
    hreads (by rw [hjoin]; exact hrt _)
  have hmain : parentRun dec penv isl = .err (.childTaskFailed "") isl := by
    unfold parentRun
    rw [htry]
    simp
  refine ⟨by rw [childRun_exnNoMsg_eq enc what defA defP cenv hcR hw2 hcW2],
    hmain, fun call errno hcontra => ?_⟩
  rw [hmain] at hcontra
  simp at hcontra

/-- Witness for C5: an unrecognized child failure surfaces as
`ChildTaskFailed` with an empty message. -/
theorem run_evolve_unknown_failure_empty_message_witness :
    parentRun (fun l : List (Message Nat Nat) => l.head?)
        ⟨none, [Except.ok [⟨1, "", 0, 0⟩], Except.ok []], none, none⟩ ⟨1, 2⟩
      = .err (.childTaskFailed "") ⟨1, 2⟩ :=
  (run_evolve_unknown_failure_empty_message (fun ms : Message Nat Nat => [ms])
    (fun l => l.head?) (fun ms => rfl) (fun _ => "") 0 0
    ⟨none, [], none, true, [], none⟩
    ⟨none, [Except.ok [⟨1, "", 0, 0⟩], Except.ok []], none, none⟩ ⟨1, 2⟩
    [[⟨1, "", 0, 0⟩]] rfl (by intro r hr; simp at hr) rfl rfl rfl
    (by intro c hc; simp at hc; subst hc; simp) rfl rfl).2.1

/-- C4: every wire message the child passes to `send_message` satisfies the
message invariant: status `0` implies the error text is empty and the
algorithm/population fields hold the result the task computed; a nonzero
status implies they hold the default-constructed instances. -/
theorem child_wire_message_invariant (enc : Message A P → List β)
    (what : EngineError → String) (defA : A) (defP : P)
    (task : TaskResult A P) (env : ChildEnv) :
    ∀ m ∈ (childRun enc what defA defP task env).2,
      (m.status = 0 → m.errText = "" ∧
        ∃ a p, task = .success a p ∧ m.algo = a ∧ m.pop = p) ∧
      (m.status ≠ 0 → m.algo = defA ∧ m.pop = defP) := by
  intro m hm
  rcases childRun_sent_mem enc what defA defP task env m hm with
    ⟨a, p, ht, hme⟩ | ⟨h1, h2, h3⟩
  · subst hme
    exact ⟨fun _ => ⟨rfl, a, p, ht, rfl, rfl⟩, fun hs => absurd rfl hs⟩
  · refine ⟨fun hs => ?_, fun _ => ⟨h2, h3⟩⟩
    rw [h1] at hs
    exact absurd hs (by norm_num)

/-- Witness for C4: the failure report of a child whose task threw with
message `boom` carries status 1 and the default-constructed state. -/
theorem child_wire_message_invariant_witness :
    (⟨1, "boom", 0, 0⟩ : Message Nat Nat).algo = 0 ∧
    (⟨1, "boom", 0, 0⟩ : Message Nat Nat).pop = 0 :=
  (child_wire_message_invariant (fun ms : Message Nat Nat => [ms]) (fun _ => "")
    0 0 (.exnWithMsg "boom") ⟨none, [], none, true, [], none⟩ ⟨1, "boom", 0, 0⟩
    (by rw [childRun_exnWithMsg_eq (fun ms : Message Nat Nat => [ms]) (fun _ => "")
          0 0 "boom" ⟨none, [], none, true, [], none⟩ rfl rfl
          (by intro r hr; simp at hr) rfl]
        simp)).2 (by decide)

/-- C8: every double fault — an error raised while already handling a prior
error or inside a guaranteed-cleanup path — ends in a printed diagnostic
and a process exit with a nonzero status, never in a propagated error: (1)
a failing `close` of an open read end in the pipe destructor, (2) a failing
`close` of an open write end in the pipe destructor, (3) a kill failure
other than `ESRCH` while the parent handles a read/decode error, (4) a
failing message capture in the child's catch handler, (5) a failing
`close_w` after the child's failure report, and (6) a failing `write` while
the child sends the failure report. -/
theorem double_fault_always_fatal (A P β : Type) :
    (∀ (p : pipe_t) (e : Int) (resW : Option Int), p.r_status = true →
      pipeDtor p (some e) resW = .fatal 1 pipeDtorMsg) ∧
    (∀ (p : pipe_t) (e : Int), p.w_status = true →
      pipeDtor p none (some e) = .fatal 1 pipeDtorMsg) ∧
    (∀ (dec : List β → Option (Message A P)) (env : ParentEnv β)
        (isl : Island A P) (e : EngineError) (ke : Int),
      parentTry dec env = .error e → env.kill = some ke → ke ≠ ESRCH →
      parentRun dec env isl = .fatal 1 parentFatalMsg) ∧
    (∀ (enc : Message A P → List β) (what : EngineError → String)
        (defA : A) (defP : P) (M : String) (env : ChildEnv),
      env.closeR = none → env.captureOk = false →
      (childRun enc what defA defP (.exnWithMsg M) env).1.exitCode = 1 ∧
      (childRun enc what defA defP (.exnWithMsg M) env).1.fatalDiag = true) ∧
    (∀ (enc : Message A P → List β) (what : EngineError → String)
        (defA : A) (defP : P) (M : String) (env : ChildEnv) (e : Int),
      env.closeR = none → env.captureOk = true →
      (∀ r ∈ env.wr2, r = none) → env.closeW2 = some e →
      (childRun enc what defA defP (.exnWithMsg M) env).1.exitCode = 1 ∧
      (childRun enc what defA defP (.exnWithMsg M) env).1.fatalDiag = true) ∧
    (∀ (enc : Message A P → List β) (what : EngineError → String)
        (defA : A) (defP : P) (M : String) (env : ChildEnv)
        (k : Nat) (e : Int) (rest : List (Option Int)),
      env.closeR = none → env.captureOk = true →
      env.wr2 = List.replicate k none ++ some e :: rest →
      k < (sendChunks (enc ⟨1, M, defA, defP⟩)).length →
      (childRun enc what defA defP (.exnWithMsg M) env).1.exitCode = 1 ∧
      (childRun enc what defA defP (.exnWithMsg M) env).1.fatalDiag = true) := by
  refine ⟨?_, ?_, ?_, ?_, ?_, ?_⟩
  · intro p e resW hp
    simp [pipeDtor, close_r, hp]
  · intro p e hw
    cases hr : p.r_status <;> simp [pipeDtor, close_r, close_w, hr, hw]
  · intro dec env isl e ke herr hk hne
    unfold parentRun
    rw [herr, hk]
    simp [hne]
  · intro enc what defA defP M env hcR hcap
    unfold childRun
    rw [hcR]
    simp [childTry, capturedMsg, hcap]
  · intro enc what defA defP M env e hcR hcap hw2 hcW2
    unfold childRun
    rw [hcR]
    simp [childTry, capturedMsg, hcap, send_message,
      writeChunks_ok _ env.wr2 hw2, hcW2]
  · intro enc what defA defP M env k e rest hcR hcap hw2 hk
    have hfail := writeChunks_fail (sendChunks (enc ⟨1, M, defA, defP⟩)) k e rest hk
    rcases hsm : send_message enc ⟨1, M, defA, defP⟩ env.wr2 with ⟨w, s2⟩
    have hw : w = some (.syscallFailure "write" e) := by
      have : (send_message enc ⟨1, M, defA, defP⟩ env.wr2).1
          = some (.syscallFailure "write" e) := by
        rw [send_message, hw2]
        exact hfail
      rw [hsm] at this
      exact this
    subst hw
    unfold childRun
    rw [hcR]
    simp [childTry, capturedMsg, hcap, hsm]

/-- Witness for C8: a destructor-time failing close on an open pipe exits
with code 1 after the fixed diagnostic. -/
theorem double_fault_always_fatal_witness :
    pipeDtor ⟨3, 4, true, true⟩ (some 9) none = .fatal 1 pipeDtorMsg :=
  (double_fault_always_fatal Nat Nat Nat).1 ⟨3, 4, true, true⟩ 9 none rfl

/-- C10: a failure of the parent's `close_r` after a wire message has been
fully received and decoded still falls into the catch block: the child is
signalled, the close error is re-raised, and the decoded result is
discarded — `run_evolve` never returns success on such an invocation. -/
theorem parent_close_failure_discards_result
    (dec : List β → Option (Message A P)) (env : ParentEnv β)
    (isl : Island A P) (delivery : List (List β)) (m : Message A P) (e : Int)
    (hW : env.closeW = none)
    (hne : ∀ c ∈ delivery, c ≠ [])
    (hreads : env.reads = delivery.map Except.ok ++ [Except.ok []])
    (hdec : dec delivery.flatten = some m)
    (hR : env.closeR = some e) :
    parentTry dec env = .error (.syscallFailure "close" e) ∧
    (∀ s, parentRun dec env isl ≠ .ok s) ∧
    ((env.kill = none ∨ env.kill = some ESRCH) →
      parentRun dec env isl = .err (.syscallFailure "close" e) isl) := by
  have htry : parentTry dec env = .error (.syscallFailure "close" e) := by
    simp only [parentTry, hW, hreads, readLoop_delivery delivery hne, hdec, hR]
  refine ⟨htry, fun s hcontra => ?_, fun hk => ?_⟩
  · unfold parentRun at hcontra
    rw [htry] at hcontra
    rcases hke : env.kill with _ | ke <;> rw [hke] at hcontra
    · simp at hcontra
    · by_cases hkesrch : ke = ESRCH <;> simp [hkesrch] at hcontra
  · unfold parentRun
    rw [htry]
    rcases hk with hk | hk <;> rw [hk] <;> simp

/-- Witness for C10: a decodable one-chunk delivery followed by a failing
`close_r` with code 13 re-raises the close error and discards the decoded
message. -/
theorem parent_close_failure_discards_result_witness :
    parentRun (fun l : List (Message Nat Nat) => l.head?)
        ⟨none, [Except.ok [⟨0, "", 7, 8⟩], Except.ok []], some 13, none⟩ ⟨1, 2⟩
      = .err (.syscallFailure "close" 13) ⟨1, 2⟩ :=
  (parent_close_failure_discards_result (fun l : List (Message Nat Nat) => l.head?)
    ⟨none, [Except.ok [⟨0, "", 7, 8⟩], Except.ok []], some 13, none⟩ ⟨1, 2⟩
    [[⟨0, "", 7, 8⟩]] ⟨0, "", 7, 8⟩ 13 rfl
    (by intro c hc; simp at hc; subst hc; simp) rfl rfl rfl).2.2 (Or.inl rfl)

end ForkIsland
